import Mathlib

/-!
Verification of the MedReserve-AI prediction-aggregation core.

This file gives a shallow embedding, in Lean 4, of the disease-prediction
pipeline of the repository:

  * `ml/preprocessing/preprocess.py` — `TextPreprocessor.clean_text`
  * `ml/predict_ml.py`              — `MLDiseasePredictor`
  * `ml/predict_dl.py`              — `DLDiseasePredictor`
  * `ml/ensemble_predictor.py`      — `EnsembleDiseasePredictor`

Modelling conventions:

  * Python floats are modelled as exact rationals (`ℚ`); the float literal
    `0.6` becomes `6/10`, and so on.  All the verified properties are about
    the real-number arithmetic the code intends to perform.
  * Python dicts that the code uses as tagged records are modelled as Lean
    structures/inductives; a dict key that may be absent becomes an
    `Option` field.  A result dict containing the `"error"` key is the
    `.err` variant, any other result dict is the `.ok` variant.
  * The external model artefacts (scikit-learn pipeline, Keras network,
    tokenizer, label encoder) are modelled as opaque data inside each
    predictor state: a list of class names together with a function from
    cleaned text to a probability vector.  Exceptions that those libraries
    may raise during inference are modelled by `Except`/`Option` values.
    The fact that `model.predict` on a batch produces one probability row
    per input row (a Keras guarantee) is modelled by applying the row
    function row-wise.
  * Mutation of `self.is_loaded` is modelled by explicit state passing;
    because a load attempt depends only on the (fixed) availability of the
    artefacts, re-running a load is idempotent, so per-call state threading
    and a single up-front load agree, which is how the batch loops are
    modelled.
  * `np.argsort(...)[::-1]` is modelled by a stable descending insertion
    sort over indices.  `np.argsort` uses an unstable sort, so the order of
    tied entries is unspecified in the source; every verified property is
    insensitive to the order of ties.
  * Python `set` iteration order is unspecified; the union
    `set(ml) | set(dl)` in `_combine_predictions` is modelled as the
    first-occurrence-ordered union.  Again all verified properties are
    insensitive to this order.
-/

/-! ## Python dynamic values (only what `clean_text` needs) -/

/-- A Python runtime value handed to `TextPreprocessor.clean_text`.  The
function only distinguishes strings from everything else
(`isinstance(text, str)`), so a few representative non-string shapes
suffice. -/
inductive PyVal where
  | str (s : String)
  | int (n : Int)
  | float (q : ℚ)
  | bool (b : Bool)
  | pynone
  | list (xs : List PyVal)

/-- Test corresponding to Python `isinstance(text, str)`. -/
def PyVal.isStr : PyVal → Bool
  | .str _ => true
  | _ => false

/-! ## TextPreprocessor (ml/preprocessing/preprocess.py)

`clean_text` lowercases, strips and collapses whitespace, removes URLs,
e-mail addresses and free-standing numbers, and then either runs the spaCy
pipeline (when the `en_core_web_sm` backend loaded) or a punctuation/stop-word
fallback.  The spaCy backend is modelled as an optional tokenisation
function producing tokens with the attributes the code reads. -/

/-- A spaCy token, with exactly the attributes `clean_text` inspects. -/
structure SpacyToken where
  text : String
  lemma_ : String
  is_punct : Bool
  is_space : Bool
  is_stop : Bool

/-- The optional spaCy backend (`nlp` module-level global): maps the
preprocessed text to its token stream. -/
abbrev NlpBackend := Option (String → List SpacyToken)

/-- The stop-word set hard-coded in `TextPreprocessor.__init__`. -/
def stopWords : List String :=
  ["i", "me", "my", "myself", "we", "our", "ours", "ourselves", "you",
   "your", "yours", "yourself", "yourselves", "he", "him", "his",
   "himself", "she", "her", "hers", "herself", "it", "its", "itself",
   "they", "them", "their", "theirs", "themselves", "what", "which",
   "who", "whom", "this", "that", "these", "those", "am", "is", "are",
   "was", "were", "be", "been", "being", "have", "has", "had", "having",
   "do", "does", "did", "doing", "a", "an", "the", "and", "but", "if",
   "or", "because", "as", "until", "while", "of", "at", "by", "for",
   "with", "through", "during", "before", "after", "above", "below",
   "up", "down", "in", "out", "on", "off", "over", "under", "again",
   "further", "then", "once"]

/-- Whitespace characters of the Python regex class `\s` (ASCII part). -/
def pySpace (c : Char) : Bool :=
  c = ' ' || c = '\t' || c = '\n' || c = '\x0d' || c = '\x0b' || c = '\x0c'

/-- ASCII lowercasing, as `str.lower()` acts on ASCII text. -/
def asciiLower (c : Char) : Char :=
  if 65 ≤ c.toNat && c.toNat ≤ 90 then Char.ofNat (c.toNat + 32) else c

/-- Characters of Python `string.punctuation`. -/
def pyPunct : List Char :=
  ['!', '\x22', '#', '$', '%', '&', '\x27', '(', ')', '*', '+', ',', '-',
   '.', '/', ':', ';', '<', '=', '>', '?', '@', '[', '\\', ']', '^', '_',
   '\x60', '\x7b', '|', '\x7d', '~']

/-- Python `str.strip()` on a character list: drop leading and trailing
whitespace. -/
def pyStripChars (l : List Char) : List Char :=
  ((l.dropWhile pySpace).reverse.dropWhile pySpace).reverse

/-- Python `str.strip()`. -/
def pyStrip (s : String) : String := ⟨pyStripChars s.data⟩

/-- One pass of `re.sub(r'\s+', ' ', text)`: every maximal whitespace run
becomes a single space.  The flag records whether the previous character
was part of a whitespace run. -/
def collapseWSGo : Bool → List Char → List Char
  | _, [] => []
  | prev, c :: cs =>
    if pySpace c then
      if prev then collapseWSGo true cs else ' ' :: collapseWSGo true cs
    else c :: collapseWSGo false cs

/-- Split a character list at single spaces (after whitespace collapsing,
spaces are the only separators).  Empty chunks are kept, as `re.sub`
deletions leave them in the Python string. -/
def splitAtSpaces : List Char → List (List Char)
  | [] => [[]]
  | c :: cs =>
    if c = ' ' then [] :: splitAtSpaces cs
    else
      match splitAtSpaces cs with
      | [] => [[c]]
      | w :: ws => (c :: w) :: ws

/-- Join chunks back with single spaces (inverse of `splitAtSpaces`). -/
def joinWithSpaces : List (List Char) → List Char
  | [] => []
  | [w] => w
  | w :: ws => w ++ ' ' :: joinWithSpaces ws

/-- Does this position start a match of `http\S+` or `www\S+` (each needs at
least one further non-space character)?  Within a space-free chunk every
remaining character is `\S`. -/
def urlStartsHere : List Char → Bool
  | 'h' :: 't' :: 't' :: 'p' :: _ :: _ => true
  | 'w' :: 'w' :: 'w' :: _ :: _ => true
  | _ => false

/-- Model of `re.sub(r'http\S+|www\S+|https\S+', '', ·)` inside one
space-free chunk: the greedy `\S+` erases from the first match position to
the end of the chunk. -/
def stripUrl : List Char → List Char
  | [] => []
  | c :: cs => if urlStartsHere (c :: cs) then [] else c :: stripUrl cs

/-- Is there an `'@'` that has at least one character before it (the list is
already the tail of the chunk) and at least one after it? -/
def atNotLast : List Char → Bool
  | [] => false
  | [_] => false
  | c :: c2 :: cs => if c = '@' then true else atNotLast (c2 :: cs)

/-- Model of `re.sub(r'\S+@\S+', '', ·)` on one space-free chunk: the chunk
matches (and is wholly erased, since both `\S+` are greedy) exactly when
some `'@'` has a non-space character on both sides. -/
def emailMatch : List Char → Bool
  | [] => false
  | _ :: rest => atNotLast rest

/-- Word characters of the Python regex class `\w` (ASCII part), used for
the `\b` boundaries of `r'\b\d+\b'`. -/
def isWordChar (c : Char) : Bool := c.isAlphanum || c = '_'

/-- Model of `re.sub(r'\b\d+\b', '', ·)` on one chunk.  `leftOk` says the
character before the pending digit run (`buf`, reversed) was a non-word
character or the start of the chunk; the run is erased exactly when its
right neighbour is also a non-word character or the end. -/
def stripNumsGo (leftOk : Bool) (buf : List Char) : List Char → List Char
  | [] => if leftOk then [] else buf.reverse
  | c :: cs =>
    if c.isDigit then stripNumsGo leftOk (c :: buf) cs
    else
      (if buf = [] then [] else if leftOk && !(isWordChar c) then [] else buf.reverse)
        ++ c :: stripNumsGo (!(isWordChar c)) [] cs

/-- The regex pipeline of `clean_text` after `lower().strip()`: collapse
whitespace, strip URLs, strip e-mail addresses, strip free-standing
numbers.  Each `re.sub` acts independently inside the space-free chunks. -/
def regexPipeline (l : List Char) : List Char :=
  let collapsed := collapseWSGo false (pyStripChars (l.map asciiLower))
  let chunks := splitAtSpaces collapsed
  let chunks := chunks.map stripUrl
  let chunks := chunks.map (fun w => if emailMatch w then [] else w)
  let chunks := chunks.map (stripNumsGo true [])
  joinWithSpaces chunks

/-- Join a list of token strings with single spaces (`' '.join(tokens)`). -/
def joinTokens : List String → String
  | [] => ""
  | [t] => t
  | t :: ts => t ++ " " ++ joinTokens ts

/-- The spaCy branch of `clean_text`: keep tokens that are not punctuation,
not whitespace, not spaCy stop words, longer than two characters and not in
the hard-coded stop-word set; emit their lemmas. -/
def spacyBranch (tokens : List SpacyToken) : String :=
  joinTokens ((tokens.filter (fun t =>
    !t.is_punct && !t.is_space && !t.is_stop &&
      decide (2 < t.text.length) && !(stopWords.contains t.text))).map
    (fun t => t.lemma_))

/-- The fallback branch of `clean_text`: delete all `string.punctuation`
characters, split on whitespace, and keep words that are not stop words and
are longer than two characters. -/
def fallbackBranch (l : List Char) : String :=
  let depunct := l.filter (fun c => !(pyPunct.contains c))
  let words := (splitAtSpaces depunct).filter (fun w => w ≠ [])
  joinTokens ((words.map (fun w => (⟨w⟩ : String))).filter
    (fun w => !(stopWords.contains w) && decide (2 < w.length)))

/-- `TextPreprocessor.clean_text` on an actual string. -/
def cleanStr (nlp : NlpBackend) (text : String) : String :=
  let pre := regexPipeline text.data
  match nlp with
  | some nlpFn => spacyBranch (nlpFn ⟨pre⟩)
  | none => fallbackBranch pre

/-- `TextPreprocessor.clean_text`: non-string input short-circuits to the
empty string (the `isinstance` guard); totality of this Lean function is
the model of "raises no exception". -/
def clean_text (nlp : NlpBackend) (text : PyVal) : String :=
  match text with
  | .str s => cleanStr nlp s
  | _ => ""

/-! ## Prediction results (the dict schema shared by both predictors) -/

/-- One entry of a `top_predictions` list. -/
structure PredEntry where
  disease : String
  confidence : ℚ
deriving DecidableEq

/-- A successful per-model prediction dict.  `sequence_length` is present
only in deep-learning results. -/
structure PredOk where
  predicted_disease : String
  confidence : ℚ
  top_predictions : List PredEntry
  original_text : String
  cleaned_text : String
  model_type : String
  sequence_length : Option Nat
deriving DecidableEq

/-- An error result dict: the `"error"` message plus the optionally present
`original_text` / `cleaned_text` keys. -/
structure PredErr where
  error : String
  original_text : Option String
  cleaned_text : Option String
deriving DecidableEq

/-- A per-model prediction result: exactly one of the success dict or the
error dict (callers probe `"error" in result`). -/
inductive PredResult where
  | ok (r : PredOk)
  | err (e : PredErr)
deriving DecidableEq

/-! ## Sorting helpers (models of `np.argsort(..)[::-1]` and `sorted(..., reverse=True)`) -/

/-- Insert `x` in front of the first element whose key is not larger,
keeping a descending order. -/
def insertDesc {α : Type} (key : α → ℚ) (x : α) : List α → List α
  | [] => [x]
  | y :: ys => if key y ≤ key x then x :: y :: ys else y :: insertDesc key x ys

/-- Stable descending insertion sort by a rational key. -/
def sortDesc {α : Type} (key : α → ℚ) : List α → List α
  | [] => []
  | x :: xs => insertDesc key x (sortDesc key xs)

/-- Indices of `ps` ordered by decreasing value: the model of
`np.argsort(ps)[::-1]` (tie order unspecified in the source, see header). -/
def argsortDesc (ps : List ℚ) : List Nat :=
  sortDesc (fun i => ps.getD i 0) (List.range ps.length)

/-- First index of the maximal element, the model of `np.argmax`; `none` on
an empty vector (where NumPy raises). -/
def argmaxGo : Nat → ℚ → Nat → List ℚ → Nat
  | best, _, _, [] => best
  | best, bv, i, v :: vs =>
    if bv < v then argmaxGo i v (i + 1) vs else argmaxGo best bv (i + 1) vs

/-- See `argmaxGo`. -/
def argmaxIdx : List ℚ → Option Nat
  | [] => none
  | v :: vs => some (argmaxGo 0 v 1 vs)

/-- Effectful map over `Option` (a loop whose body may raise, modelled as
`none`). -/
def optMap {α β : Type} (f : α → Option β) : List α → Option (List β)
  | [] => some []
  | a :: as =>
    match f a, optMap f as with
    | some b, some bs => some (b :: bs)
    | _, _ => none

/-! ## MLDiseasePredictor (ml/predict_ml.py) -/

/-- State of an `MLDiseasePredictor`: the `is_loaded` flag, whether the
model artefacts exist and deserialize (`loadable`), the label-encoder
classes, the composed `vectorizer.transform` + `model.predict_proba`
inference function (which may raise, i.e. return `.error`), and the shared
preprocessing backend. -/
structure MLState where
  is_loaded : Bool
  loadable : Bool
  classes : List String
  infer : String → Except String (List ℚ)
  nlp : NlpBackend

/-- `MLDiseasePredictor.load_models`: returns the success flag and the
post-call state (a failed load resets `is_loaded` to `False`). -/
def MLState.load_models (st : MLState) : Bool × MLState :=
  if st.loadable then (true, { st with is_loaded := true })
  else (false, { st with is_loaded := false })

/-- The `if not self.is_loaded: if not self.load_models(): return error`
prologue shared by `predict_single` and `predict_batch`. -/
def MLState.loadIfNeeded (st : MLState) : Option MLState :=
  if st.is_loaded then some st
  else if st.loadable then some { st with is_loaded := true } else none

/-- From `label_encoder.inverse_transform([idx])[0]`: out-of-range indices
raise, modelled as `none`. -/
def inverseTransform (classes : List String) (idx : Nat) : Option String :=
  classes.get? idx

/-- The top-`n` construction shared by both predictors: walk
`np.argsort(probs)[::-1][:n]` and decode each index. -/
def topEntries (classes : List String) (probs : List ℚ) (n : Nat) :
    Option (List PredEntry) :=
  optMap
    (fun i => (inverseTransform classes i).map (fun d => PredEntry.mk d (probs.getD i 0)))
    ((argsortDesc probs).take n)

/-- Assemble the success dict of `MLDiseasePredictor.predict_single` from a
probability vector.  `model.predict` of the random-forest pipeline is the
argmax of `predict_proba`; a `none` models an exception raised by NumPy or
the label encoder inside the `try` block. -/
def mlBuild (classes : List String) (probs : List ℚ) (orig cleaned : String) :
    Option PredOk :=
  match argmaxIdx probs with
  | none => none
  | some pc =>
    match inverseTransform classes pc, topEntries classes probs 3 with
    | some pd, some tops =>
      some ⟨pd, probs.getD pc 0, tops, orig, cleaned, "machine_learning", none⟩
    | _, _ => none

/-- Body of the `try` block of `MLDiseasePredictor.predict_single`, for a
loaded state. -/
def MLState.predictCore (st : MLState) (text : String) : PredResult :=
  let cleaned := cleanStr st.nlp text
  if pyStrip cleaned = "" then
    .err ⟨"No valid symptoms found after preprocessing", some text, some cleaned⟩
  else
    match st.infer cleaned with
    | .error e => .err ⟨"Prediction failed: " ++ e, some text, none⟩
    | .ok probs =>
      match mlBuild st.classes probs text cleaned with
      | some r => .ok r
      | none => .err ⟨"Prediction failed: invalid model output", some text, none⟩

/-- `MLDiseasePredictor.predict_single`. -/
def MLState.predict_single (st : MLState) (text : String) : PredResult :=
  match st.loadIfNeeded with
  | none => .err ⟨"Models not loaded", none, none⟩
  | some s => s.predictCore text

/-- `MLDiseasePredictor.predict_batch`: one load attempt, then the
per-element loop. -/
def MLState.predict_batch (st : MLState) (texts : List String) : List PredResult :=
  match st.loadIfNeeded with
  | none => texts.map (fun _ => .err ⟨"Models not loaded", none, none⟩)
  | some s => texts.map (fun t => s.predict_single t)

/-! ## DLDiseasePredictor (ml/predict_dl.py) -/

/-- State of a `DLDiseasePredictor`.  `tok` is `tokenizer.texts_to_sequences`
on one text; `maxLen` is `config['max_len']`; `rowInfer` is the Keras
forward pass on one padded row (Keras evaluates a batch row-wise, one
output row per input row); `exc` says whether `model.predict` raises on a
given padded batch (`some msg` = the raised message). -/
structure DLState where
  is_loaded : Bool
  loadable : Bool
  classes : List String
  tok : String → List Nat
  maxLen : Nat
  rowInfer : List Nat → List ℚ
  exc : List (List Nat) → Option String
  nlp : NlpBackend

/-- `DLDiseasePredictor.load_models`. -/
def DLState.load_models (st : DLState) : Bool × DLState :=
  if st.loadable then (true, { st with is_loaded := true })
  else (false, { st with is_loaded := false })

/-- The not-loaded prologue of the DL predictor. -/
def DLState.loadIfNeeded (st : DLState) : Option DLState :=
  if st.is_loaded then some st
  else if st.loadable then some { st with is_loaded := true } else none

/-- `pad_sequences([s], maxlen, padding='post')` on one sequence: default
pre-truncation to `maxLen`, then post-padding with zeros. -/
def padSeq (maxLen : Nat) (s : List Nat) : List Nat :=
  let t := s.drop (s.length - maxLen)
  t ++ List.replicate (maxLen - t.length) 0

/-- Assemble the success dict of `DLDiseasePredictor.predict_single`:
`np.argmax` for the predicted class, top three via argsort, and the
`sequence_length` key (`len(sequences[0]) if sequences[0] else 0`, which is
the length in both cases). -/
def dlBuild (classes : List String) (probs : List ℚ) (orig cleaned : String)
    (seqLen : Nat) : Option PredOk :=
  match argmaxIdx probs with
  | none => none
  | some pc =>
    match inverseTransform classes pc, topEntries classes probs 3 with
    | some pd, some tops =>
      some ⟨pd, probs.getD pc 0, tops, orig, cleaned, "deep_learning", some seqLen⟩
    | _, _ => none

/-- `DLDiseasePredictor.predict_single`. -/
def DLState.predict_single (st : DLState) (text : String) : PredResult :=
  match st.loadIfNeeded with
  | none => .err ⟨"Models not loaded", none, none⟩
  | some s =>
    let cleaned := cleanStr s.nlp text
    if pyStrip cleaned = "" then
      .err ⟨"No valid symptoms found after preprocessing", some text, some cleaned⟩
    else
      let seq := s.tok cleaned
      let x := padSeq s.maxLen seq
      match s.exc [x] with
      | some e => .err ⟨"Prediction failed: " ++ e, some text, none⟩
      | none =>
        match dlBuild s.classes (s.rowInfer x) text cleaned seq.length with
        | some r => .ok r
        | none => .err ⟨"Prediction failed: invalid model output", some text, none⟩

/-- Zip-with over four lists, the model of
`zip(symptom_texts, cleaned_texts, probabilities)` plus the `sequences[i]`
lookup in the DL batch loop. -/
def map4 {α β γ δ ε : Type} (f : α → β → γ → δ → ε) :
    List α → List β → List γ → List δ → List ε
  | a :: as, b :: bs, c :: cs, d :: ds => f a b c d :: map4 f as bs cs ds
  | _, _, _, _ => []

/-- One iteration of the DL batch loop; `none` models an exception raised
inside the loop (which would abort the whole `try` block). -/
def dlItem (s : DLState) (orig cleaned : String) (seq : List Nat)
    (probs : List ℚ) : Option PredResult :=
  if pyStrip cleaned = "" then
    some (.err ⟨"No valid symptoms found after preprocessing", some orig, some cleaned⟩)
  else
    (dlBuild s.classes probs orig cleaned seq.length).map .ok

/-- `DLDiseasePredictor.predict_batch`: load prologue, vectorised cleaning /
tokenisation / padding / forward pass, then the per-element loop; any
exception in the `try` block yields one batch-failure error per input. -/
def DLState.predict_batch (st : DLState) (texts : List String) : List PredResult :=
  match st.loadIfNeeded with
  | none => texts.map (fun _ => .err ⟨"Models not loaded", none, none⟩)
  | some s =>
    let cleaned := texts.map (cleanStr s.nlp)
    let seqs := cleaned.map s.tok
    let xs := seqs.map (padSeq s.maxLen)
    match s.exc xs with
    | some e =>
      texts.map (fun _ => .err ⟨"Batch prediction failed: " ++ e, none, none⟩)
    | none =>
      match optMap id (map4 (dlItem s) texts cleaned seqs (xs.map s.rowInfer)) with
      | some rs => rs
      | none =>
        texts.map (fun _ =>
          .err ⟨"Batch prediction failed: invalid model output", none, none⟩)

/-! ## EnsembleDiseasePredictor (ml/ensemble_predictor.py) -/

/-- An ensemble `top_predictions` entry: combined confidence plus the two
per-model confidences for traceability. -/
structure EnsEntry where
  disease : String
  confidence : ℚ
  ml_confidence : ℚ
  dl_confidence : ℚ
deriving DecidableEq

/-- The dict returned by `_combine_predictions`. -/
structure EnsCombine where
  predicted_disease : String
  confidence : ℚ
  top_predictions : List EnsEntry
  model_type : String
  ml_weight : ℚ
  dl_weight : ℚ
deriving DecidableEq

/-- The `results` dict of `_ensemble_predict` when a single model served the
prediction (`results.update(single_result)` plus the tag): the base keys
and the merged per-model success dict. -/
structure EnsSingle where
  original_text : String
  ensemble_method : String
  ind_ml : Option PredResult
  ind_dl : Option PredResult
  payload : PredOk
deriving DecidableEq

/-- The `results` dict of `_ensemble_predict` for a weighted combination. -/
structure EnsWeighted where
  original_text : String
  ensemble_method : String
  ind_ml : Option PredResult
  ind_dl : Option PredResult
  combo : EnsCombine
deriving DecidableEq

/-- Everything `EnsembleDiseasePredictor.predict_single` can return: a plain
error dict (load failure or unknown method), a verbatim delegation to one
predictor (`method="ml"`/`"dl"`), a single-model fallback, the combined
failure dict `{error, ml_error, dl_error}`, or a weighted combination. -/
inductive EnsOutcome where
  | errDict (e : PredErr)
  | delegated (r : PredResult)
  | single (r : EnsSingle)
  | bothFailed (ml_error : Option String) (dl_error : Option String)
  | combined (r : EnsWeighted)
deriving DecidableEq

/-- Ensemble state: the two sub-predictors and the ensemble-level
`is_loaded` flag. -/
structure EnsembleState where
  ml : MLState
  dl : DLState
  is_loaded : Bool

/-- Return value of `EnsembleDiseasePredictor.load_models`. -/
structure LoadStatus where
  ml_loaded : Bool
  dl_loaded : Bool
  ensemble_ready : Bool
deriving DecidableEq

/-- `EnsembleDiseasePredictor.load_models`: load both sides independently;
ready when at least one loaded. -/
def EnsembleState.load_models (s : EnsembleState) : LoadStatus × EnsembleState :=
  let ml2 := s.ml.load_models
  let dl2 := s.dl.load_models
  (⟨ml2.1, dl2.1, ml2.1 || dl2.1⟩, ⟨ml2.2, dl2.2, ml2.1 || dl2.1⟩)

/-- The `if not self.is_loaded: ...` prologue shared by `predict_single` and
`compare_models`; `none` means `{"error": "No models could be loaded"}` is
returned. -/
def EnsembleState.loadCheck (s : EnsembleState) : Option EnsembleState :=
  if s.is_loaded then some s
  else
    let r := s.load_models
    if r.1.ensemble_ready then some r.2 else none

/-- `ml_result` as recorded in `individual_predictions`: present only when
the ML predictor is loaded. -/
def mlIndOf (s : EnsembleState) (text : String) : Option PredResult :=
  if s.ml.is_loaded then some (s.ml.predict_single text) else none

/-- `dl_result` as recorded in `individual_predictions`. -/
def dlIndOf (s : EnsembleState) (text : String) : Option PredResult :=
  if s.dl.is_loaded then some (s.dl.predict_single text) else none

/-- The success payload of an optional result, when present:
`isOkRes r = some p` exactly when the Python value is a dict without the
`"error"` key; `none` covers both `ml_result is None` and an error dict. -/
def isOkRes : Option PredResult → Option PredOk
  | some (.ok r) => some r
  | _ => none

/-- `ml_result.get("error") if ml_result else "Model not loaded"`: the
sub-error recorded in the combined failure dict. -/
def subError : Option PredResult → Option String
  | none => some "Model not loaded"
  | some (.err e) => some e.error
  | some (.ok _) => none

/-- The `{disease: confidence}` dict comprehension over a
`top_predictions` list, queried with `.get(d, 0.0)`: on duplicate diseases
the later entry wins, as in a Python dict comprehension. -/
def predGetD (ps : List PredEntry) (d : String) : ℚ :=
  match ps.reverse.find? (fun p => p.disease == d) with
  | some p => p.confidence
  | none => 0

/-- First-occurrence-ordered deduplication, the representative order chosen
for the (unordered) Python set union of the two key sets. -/
def dedupFirst (seen : List String) : List String → List String
  | [] => []
  | x :: xs =>
    if seen.contains x then dedupFirst seen xs
    else x :: dedupFirst (x :: seen) xs

/-- Key set of `all_diseases = set(ml) | set(dl)`. -/
def allDiseases (mlPs dlPs : List PredEntry) : List String :=
  dedupFirst [] (mlPs.map (fun p => p.disease) ++ dlPs.map (fun p => p.disease))

/-- The `combined_scores` dict: for each disease of the union, the weighted
score `ml_score * 0.6 + dl_score * 0.4` (weights as exact rationals). -/
def combinedPairs (mlPs dlPs : List PredEntry) : List (String × ℚ) :=
  (allDiseases mlPs dlPs).map
    (fun d => (d, predGetD mlPs d * (6/10) + predGetD dlPs d * (4/10)))

/-- `EnsembleDiseasePredictor._combine_predictions`.  `none` models the
uncaught `IndexError` of `sorted_predictions[0]` when both top lists are
empty (there is no `try` around this code). -/
def combinePredictions (mlr dlr : PredOk) : Option EnsCombine :=
  let pairs := combinedPairs mlr.top_predictions dlr.top_predictions
  let sorted := sortDesc (fun p => p.2) pairs
  match sorted with
  | [] => none
  | top :: _ =>
    some ⟨top.1, top.2,
      (sorted.take 5).map (fun p =>
        ⟨p.1, p.2, predGetD mlr.top_predictions p.1, predGetD dlr.top_predictions p.1⟩),
      "ensemble", 6/10, 4/10⟩

/-- `EnsembleDiseasePredictor._ensemble_predict`.  The four branches of the
source partition exactly by which of the two optional results carries a
success dict; `none` again models the uncaught `IndexError` from
`_combine_predictions`. -/
def EnsembleState.ensemblePredict (s : EnsembleState) (text : String) :
    Option EnsOutcome :=
  let mlRes := mlIndOf s text
  let dlRes := dlIndOf s text
  match isOkRes mlRes, isOkRes dlRes with
  | some m, none => some (.single ⟨text, "ml_only", mlRes, dlRes, m⟩)
  | none, some d => some (.single ⟨text, "dl_only", mlRes, dlRes, d⟩)
  | none, none => some (.bothFailed (subError mlRes) (subError dlRes))
  | some m, some d =>
    (combinePredictions m d).map
      (fun c => EnsOutcome.combined ⟨text, "weighted_average", mlRes, dlRes, c⟩)

/-- `EnsembleDiseasePredictor.predict_single`. -/
def EnsembleState.predict_single (s : EnsembleState) (text method : String) :
    Option EnsOutcome :=
  match s.loadCheck with
  | none => some (.errDict ⟨"No models could be loaded", none, none⟩)
  | some s2 =>
    if method = "ml" then some (.delegated (s2.ml.predict_single text))
    else if method = "dl" then some (.delegated (s2.dl.predict_single text))
    else if method = "ensemble" then s2.ensemblePredict text
    else
      some (.errDict
        ⟨"Unknown method: " ++ method ++ ". Use \x27ml\x27, \x27dl\x27, or \x27ensemble\x27",
         none, none⟩)

/-- `EnsembleDiseasePredictor.predict_batch`: the list comprehension over
`predict_single`; an uncaught exception in any element aborts the whole
comprehension, hence the outer `Option`. -/
def EnsembleState.predict_batch (s : EnsembleState) (texts : List String)
    (method : String) : Option (List EnsOutcome) :=
  optMap (fun t => s.predict_single t method) texts

/-- The consensus sub-dict of `compare_models`. -/
structure Consensus where
  disease : String
  avg_confidence : ℚ
deriving DecidableEq

/-- The comparison dict of `compare_models`; `agreement`,
`confidence_difference` keep their initial `None` unless both predictions
succeeded, and the `consensus` key is only ever inserted on agreement. -/
structure Comparison where
  symptom_text : String
  ml_prediction : Option PredResult
  dl_prediction : Option PredResult
  agreement : Option Bool
  confidence_difference : Option ℚ
  consensus : Option Consensus
deriving DecidableEq

/-- Return type of `compare_models`: the load-failure error dict or a
comparison dict. -/
inductive CompareOutcome where
  | errDict (e : PredErr)
  | cmp (c : Comparison)
deriving DecidableEq

/-- `EnsembleDiseasePredictor.compare_models`. -/
def EnsembleState.compare_models (s : EnsembleState) (text : String) :
    CompareOutcome :=
  match s.loadCheck with
  | none => .errDict ⟨"No models could be loaded", none, none⟩
  | some s2 =>
    let mlp := mlIndOf s2 text
    let dlp := dlIndOf s2 text
    match isOkRes mlp, isOkRes dlp with
    | some m, some d =>
      let agr := m.predicted_disease == d.predicted_disease
      .cmp ⟨text, mlp, dlp, some agr, some |m.confidence - d.confidence|,
        if agr then some ⟨m.predicted_disease, (m.confidence + d.confidence) / 2⟩
        else none⟩
    | _, _ => .cmp ⟨text, mlp, dlp, none, none, none⟩

/-! ## Helper lemmas about the sorting and looping combinators -/

/-- Membership in an insertion step. -/
theorem mem_insertDesc {α : Type} (key : α → ℚ) (x a : α) :
    ∀ l : List α, a ∈ insertDesc key x l ↔ a = x ∨ a ∈ l := by
  intro l
  induction l with
  | nil => simp [insertDesc]
  | cons y ys ih =>
    by_cases h : key y ≤ key x
    · simp [insertDesc, h]
    · simp only [insertDesc, if_neg h, List.mem_cons, ih]
      tauto

/-- Membership in the descending sort. -/
theorem mem_sortDesc {α : Type} (key : α → ℚ) (a : α) :
    ∀ l : List α, a ∈ sortDesc key l ↔ a ∈ l := by
  intro l
  induction l with
  | nil => simp [sortDesc]
  | cons x xs ih => simp [sortDesc, mem_insertDesc, ih]

/-- Inserting into a descending list keeps it descending. -/
theorem pairwise_insertDesc {α : Type} (key : α → ℚ) (x : α) :
    ∀ l : List α, l.Pairwise (fun a b => key b ≤ key a) →
      (insertDesc key x l).Pairwise (fun a b => key b ≤ key a) := by
  intro l
  induction l with
  | nil => simp [insertDesc]
  | cons y ys ih =>
    intro hp
    rcases List.pairwise_cons.mp hp with ⟨hy, hys⟩
    by_cases h : key y ≤ key x
    · simp only [insertDesc, if_pos h]
      refine List.pairwise_cons.mpr ⟨?_, hp⟩
      intro b hb
      rcases List.mem_cons.mp hb with rfl | hb
      · exact h
      · exact le_trans (hy b hb) h
    · simp only [insertDesc, if_neg h]
      refine List.pairwise_cons.mpr ⟨?_, ih hys⟩
      intro b hb
      rcases (mem_insertDesc key x b ys).mp hb with rfl | hb
      · exact le_of_lt (lt_of_not_le h)
      · exact hy b hb

/-- The sort is descending in the key. -/
theorem pairwise_sortDesc {α : Type} (key : α → ℚ) :
    ∀ l : List α, (sortDesc key l).Pairwise (fun a b => key b ≤ key a) := by
  intro l
  induction l with
  | nil => simp [sortDesc]
  | cons x xs ih => exact pairwise_insertDesc key x _ ih

/-- Indices produced by `argsortDesc` order the probabilities descendingly. -/
theorem pairwise_argsortDesc (ps : List ℚ) :
    (argsortDesc ps).Pairwise (fun i j => ps.getD j 0 ≤ ps.getD i 0) :=
  pairwise_sortDesc (fun i => ps.getD i 0) (List.range ps.length)

/-- A successful `optMap` produces one output per input. -/
theorem optMap_length {α β : Type} (f : α → Option β) :
    ∀ (l : List α) (bs : List β), optMap f l = some bs → bs.length = l.length := by
  intro l
  induction l with
  | nil =>
    intro bs h
    simp only [optMap, Option.some.injEq] at h
    subst h
    rfl
  | cons a as ih =>
    intro bs h
    simp only [optMap] at h
    cases hfa : f a with
    | none => rw [hfa] at h; simp at h
    | some b =>
      rw [hfa] at h
      cases hrest : optMap f as with
      | none => rw [hrest] at h; simp at h
      | some bs2 =>
        rw [hrest] at h
        simp only [Option.some.injEq] at h
        subst h
        simp [ih bs2 hrest]

/-- Every output element of a successful `optMap` comes from some input
element. -/
theorem optMap_mem {α β : Type} (f : α → Option β) :
    ∀ (l : List α) (bs : List β), optMap f l = some bs → ∀ b ∈ bs,
      ∃ a ∈ l, f a = some b := by
  intro l
  induction l with
  | nil =>
    intro bs h b hb
    simp only [optMap, Option.some.injEq] at h
    subst h
    simp at hb
  | cons a as ih =>
    intro bs h b hb
    simp only [optMap] at h
    cases hfa : f a with
    | none => rw [hfa] at h; simp at h
    | some b1 =>
      rw [hfa] at h
      cases hrest : optMap f as with
      | none => rw [hrest] at h; simp at h
      | some bs2 =>
        rw [hrest] at h
        simp only [Option.some.injEq] at h
        subst h
        rcases List.mem_cons.mp hb with rfl | hb2
        · exact ⟨a, List.mem_cons_self a as, hfa⟩
        · rcases ih bs2 hrest b hb2 with ⟨a2, ha2, hfa2⟩
          exact ⟨a2, List.mem_cons_of_mem a ha2, hfa2⟩

/-- A successful `optMap` turns a pairwise relation on inputs into one on
outputs, whenever `f` is compatible with the two relations. -/
theorem optMap_pairwise {α β : Type} {f : α → Option β}
    {R : α → α → Prop} {S : β → β → Prop}
    (hcompat : ∀ a a' b b', R a a' → f a = some b → f a' = some b' → S b b') :
    ∀ {l : List α} {bs : List β}, l.Pairwise R → optMap f l = some bs →
      bs.Pairwise S := by
  intro l
  induction l with
  | nil =>
    intro bs _ h
    simp only [optMap, Option.some.injEq] at h
    subst h
    exact List.Pairwise.nil
  | cons a as ih =>
    intro bs hp h
    rcases List.pairwise_cons.mp hp with ⟨ha, has⟩
    simp only [optMap] at h
    cases hfa : f a with
    | none => rw [hfa] at h; simp at h
    | some b =>
      rw [hfa] at h
      cases hrest : optMap f as with
      | none => rw [hrest] at h; simp at h
      | some bs2 =>
        rw [hrest] at h
        simp only [Option.some.injEq] at h
        subst h
        refine List.pairwise_cons.mpr ⟨?_, ih has hrest⟩
        intro b2 hb2
        rcases optMap_mem f as bs2 hrest b2 hb2 with ⟨a2, ha2, hfa2⟩
        exact hcompat a a2 b b2 (ha a2 ha2) hfa hfa2

/-- `map4` over four lists of equal length has that same length. -/
theorem map4_length {α β γ δ ε : Type} (f : α → β → γ → δ → ε) :
    ∀ (as : List α) (bs : List β) (cs : List γ) (ds : List δ),
      bs.length = as.length → cs.length = as.length → ds.length = as.length →
      (map4 f as bs cs ds).length = as.length := by
  intro as
  induction as with
  | nil => intro bs cs ds _ _ _; simp [map4]
  | cons a as ih =>
    intro bs cs ds hb hc hd
    cases bs with
    | nil => simp at hb
    | cons b bs =>
      cases cs with
      | nil => simp at hc
      | cons c cs =>
        cases ds with
        | nil => simp at hd
        | cons d ds =>
          simp only [map4, List.length_cons, Nat.succ_inj] at *
          exact ih bs cs ds hb hc hd

/-- `topEntries` lists are ordered by non-increasing confidence. -/
theorem topEntries_pairwise (classes : List String) (probs : List ℚ) (n : Nat)
    (tops : List PredEntry) (h : topEntries classes probs n = some tops) :
    tops.Pairwise (fun a b => b.confidence ≤ a.confidence) := by
  have hidx : ((argsortDesc probs).take n).Pairwise
      (fun i j => probs.getD j 0 ≤ probs.getD i 0) :=
    (pairwise_argsortDesc probs).sublist (List.take_sublist n (argsortDesc probs))
  refine optMap_pairwise ?_ hidx h
  intro i j b b' hij hfi hfj
  cases hci : inverseTransform classes i with
  | none => rw [hci] at hfi; simp at hfi
  | some di =>
    rw [hci] at hfi
    cases hcj : inverseTransform classes j with
    | none => rw [hcj] at hfj; simp at hfj
    | some dj =>
      rw [hcj] at hfj
      simp at hfi hfj
      rw [← hfi, ← hfj]
      simpa [List.getD_eq_getElem?_getD] using hij

/-! ## Concrete states used by witnesses and counterexamples -/

/-- A loaded two-class ML predictor with a fixed probability output. -/
def mlDemo : MLState :=
  ⟨true, true, ["cold", "flu"], fun _ => .ok [3/10, 7/10], none⟩

/-- A loaded two-class DL predictor with a fixed probability output. -/
def dlDemo : DLState :=
  ⟨true, true, ["cold", "flu"], fun _ => [1, 2], 5, fun _ => [2/10, 8/10],
   fun _ => none, none⟩

/-- An ML predictor with no artefacts present: unloaded and unloadable. -/
def mlUnloaded : MLState :=
  ⟨false, false, [], fun _ => .error "no artifacts", none⟩

/-- A DL predictor with no artefacts present. -/
def dlUnloaded : DLState :=
  ⟨false, false, [], fun _ => [], 100, fun _ => [], fun _ => none, none⟩

/-- Ensemble with neither model available. -/
def ensUnloaded : EnsembleState := ⟨mlUnloaded, dlUnloaded, false⟩

/-- Ensemble with both models loaded. -/
def ensDemo : EnsembleState := ⟨mlDemo, dlDemo, true⟩

/-- Ensemble where only the ML model is loaded. -/
def ensMlOnly : EnsembleState := ⟨mlDemo, dlUnloaded, true⟩

/-- Ensemble where only the DL model is loaded. -/
def ensDlOnly : EnsembleState := ⟨mlUnloaded, dlDemo, true⟩

/-- The ML success dict on `"fever pain"` for `mlDemo`. -/
def mlDemoRes : PredOk :=
  ⟨"flu", 7/10, [⟨"flu", 7/10⟩, ⟨"cold", 3/10⟩], "fever pain", "fever pain",
   "machine_learning", none⟩

/-- The DL success dict on `"fever pain"` for `dlDemo`. -/
def dlDemoRes : PredOk :=
  ⟨"flu", 8/10, [⟨"flu", 8/10⟩, ⟨"cold", 2/10⟩], "fever pain", "fever pain",
   "deep_learning", some 2⟩

/-- The ML result of the spec's weighted-combination example. -/
def mlC2 : PredOk :=
  ⟨"Flu", 7/10, [⟨"Flu", 7/10⟩, ⟨"Cold", 2/10⟩, ⟨"Migraine", 1/10⟩],
   "t", "t", "machine_learning", none⟩

/-- The DL result of the spec's weighted-combination example. -/
def dlC2 : PredOk :=
  ⟨"Flu", 5/10, [⟨"Flu", 5/10⟩, ⟨"Allergy", 3/10⟩, ⟨"Cold", 2/10⟩],
   "t", "t", "deep_learning", some 3⟩

/-- The combined dict for the weighted-combination example. -/
def c2Combined : EnsCombine :=
  ⟨"Flu", 31/50,
   [⟨"Flu", 31/50, 7/10, 5/10⟩, ⟨"Cold", 1/5, 2/10, 2/10⟩,
    ⟨"Allergy", 3/25, 0, 3/10⟩, ⟨"Migraine", 3/50, 1/10, 0⟩],
   "ensemble", 6/10, 4/10⟩

/-! ## Supporting lemmas for the claims -/

/-- The empty-input error message is not an inference-failure message: they
differ in their first character. -/
theorem noValid_ne_predFailed (e : String) :
    "No valid symptoms found after preprocessing" ≠ "Prediction failed: " ++ e := by
  intro h
  have h2 := congrArg String.data h
  simp [String.data_append] at h2

/-- When the ensemble flag is set or some artefact set is loadable, the
load prologue reaches the method dispatch. -/
theorem loadCheck_ready (st : EnsembleState)
    (h : st.is_loaded = true ∨ st.ml.loadable = true ∨ st.dl.loadable = true) :
    ∃ s2, st.loadCheck = some s2 := by
  by_cases hl : st.is_loaded
  · exact ⟨st, by simp [EnsembleState.loadCheck, hl]⟩
  · refine ⟨(st.load_models).2, ?_⟩
    have hready : (st.load_models).1.ensemble_ready = true := by
      rcases h with h | h | h
      · exact absurd h hl
      · simp [EnsembleState.load_models, MLState.load_models, DLState.load_models, h]
      · simp [EnsembleState.load_models, MLState.load_models, DLState.load_models, h]
    simp [EnsembleState.loadCheck, hl, hready]

/-! ## The claims -/

/-- Claim C9 (confirmed): for every non-string input value,
`TextPreprocessor.clean_text` returns the empty string; the function is
total (no exception escapes). -/
theorem C9_clean_text_nonstring (nlp : NlpBackend) (v : PyVal)
    (h : v.isStr = false) : clean_text nlp v = "" := by
  cases v <;> first | rfl | simp [PyVal.isStr] at h

/-- Witness for C9 at the integer input `5`. -/
theorem C9_witness :
    PyVal.isStr (.int 5) = false ∧ clean_text none (.int 5) = "" :=
  ⟨rfl, C9_clean_text_nonstring none (.int 5) rfl⟩

/-- Claim C2 (confirmed): on the spec's example inputs,
`_combine_predictions` produces combined scores `0.6 * ml + 0.4 * dl`
(zero for a missing side), ranked Flu `0.62` > Cold `0.2` > Allergy `0.12`
> Migraine `0.06`, with `predicted_disease = "Flu"` and confidence `0.62`
(`31/50`). -/
theorem C2_weighted_combination_example :
    combinePredictions mlC2 dlC2 = some c2Combined := by
  with_unfolding_all decide

/-- Counterexample to claim C1 as stated: with both predictors unloaded and
unloadable (no artifacts) the top-level `predict_single(text, "ensemble")`
returns `{"error": "No models could be loaded"}` — not the combined
`{error, ml_error, dl_error}` dict the claim promises. -/
theorem C1_counterexample :
    EnsembleState.predict_single ensUnloaded "fever" "ensemble" =
        some (.errDict ⟨"No models could be loaded", none, none⟩) ∧
      EnsembleState.predict_single ensUnloaded "fever" "ensemble" ≠
        some (.bothFailed (some "Model not loaded") (some "Model not loaded")) := by
  with_unfolding_all decide

/-- Claim C1 (corrected): when both predictors are unloaded and unloadable,
the not-loaded prologue of `predict_single` fails first and the caller gets
`{"error": "No models could be loaded"}`; the combined error
`{error: "Both models failed to make predictions", ml_error: "Model not
loaded", dl_error: "Model not loaded"}` is what `_ensemble_predict` itself
produces when it runs (i.e. when the ensemble flag is already set) with
both sub-predictors unloaded. -/
theorem C1_total_failure (st : EnsembleState) (text : String)
    (hml : st.ml.is_loaded = false) (hdl : st.dl.is_loaded = false)
    (hmla : st.ml.loadable = false) (hdla : st.dl.loadable = false) :
    (st.is_loaded = false →
      st.predict_single text "ensemble" =
        some (.errDict ⟨"No models could be loaded", none, none⟩)) ∧
    st.ensemblePredict text =
      some (.bothFailed (some "Model not loaded") (some "Model not loaded")) := by
  constructor
  · intro hl
    simp [EnsembleState.predict_single, EnsembleState.loadCheck, hl,
      EnsembleState.load_models, MLState.load_models, DLState.load_models,
      hmla, hdla]
  · simp [EnsembleState.ensemblePredict, mlIndOf, dlIndOf, hml, hdl, isOkRes,
      subError]

/-- Witness for C1 at the concrete unloadable ensemble. -/
theorem C1_witness :
    EnsembleState.predict_single ensUnloaded "fever" "ensemble" =
        some (.errDict ⟨"No models could be loaded", none, none⟩) ∧
      EnsembleState.ensemblePredict ensUnloaded "fever" =
        some (.bothFailed (some "Model not loaded") (some "Model not loaded")) :=
  ⟨(C1_total_failure ensUnloaded "fever" rfl rfl rfl rfl).1 rfl,
   (C1_total_failure ensUnloaded "fever" rfl rfl rfl rfl).2⟩

/-- Claim C10 (confirmed): with the load prologue passable (ensemble marked
loaded, or some artefact set loadable) and a method outside
`{"ml", "dl", "ensemble"}`, `predict_single` returns the unknown-method
error dict naming the method — structurally without consulting either
predictor (the `errDict` variant carries no prediction data). -/
theorem C10_unknown_method (st : EnsembleState) (text method : String)
    (h1 : method ≠ "ml") (h2 : method ≠ "dl") (h3 : method ≠ "ensemble")
    (hready : st.is_loaded = true ∨ st.ml.loadable = true ∨ st.dl.loadable = true) :
    st.predict_single text method =
      some (.errDict ⟨"Unknown method: " ++ method ++
        ". Use \x27ml\x27, \x27dl\x27, or \x27ensemble\x27", none, none⟩) := by
  rcases loadCheck_ready st hready with ⟨s2, hs2⟩
  simp [EnsembleState.predict_single, hs2, h1, h2, h3]

/-- Witness for C10 at the method string `"vote"`. -/
theorem C10_witness :
    EnsembleState.predict_single ensDemo "fever" "vote" =
      some (.errDict ⟨"Unknown method: " ++ "vote" ++
        ". Use \x27ml\x27, \x27dl\x27, or \x27ensemble\x27", none, none⟩) :=
  C10_unknown_method ensDemo "fever" "vote" (by decide) (by decide) (by decide)
    (Or.inl rfl)

/-- Evaluation of `isOkRes` on a present success result. -/
theorem isOkRes_okSome (r : PredOk) : isOkRes (some (.ok r)) = some r := rfl

/-- Claim C3 (confirmed): in a consistent loaded state, if exactly one
predictor yields a success dict (the other being unloaded or erroring), the
ensemble result is that dict verbatim, tagged `ml_only` / `dl_only`, with
both individual results recorded. -/
theorem C3_single_model_fallback :
    (∀ (st : EnsembleState) (text : String) (m : PredOk),
      st.is_loaded = true → st.ml.is_loaded = true →
      st.ml.predict_single text = .ok m →
      isOkRes (dlIndOf st text) = none →
      st.predict_single text "ensemble" =
        some (.single ⟨text, "ml_only", some (.ok m), dlIndOf st text, m⟩)) ∧
    (∀ (st : EnsembleState) (text : String) (d : PredOk),
      st.is_loaded = true → st.dl.is_loaded = true →
      st.dl.predict_single text = .ok d →
      isOkRes (mlIndOf st text) = none →
      st.predict_single text "ensemble" =
        some (.single ⟨text, "dl_only", mlIndOf st text, some (.ok d), d⟩)) := by
  constructor
  · intro st text m hload hml hres hdl
    have hmlind : mlIndOf st text = some (.ok m) := by simp [mlIndOf, hml, hres]
    simp [EnsembleState.predict_single, EnsembleState.loadCheck, hload,
      EnsembleState.ensemblePredict, hmlind, hdl, isOkRes_okSome]
  · intro st text d hload hdl hres hml
    have hdlind : dlIndOf st text = some (.ok d) := by simp [dlIndOf, hdl, hres]
    simp [EnsembleState.predict_single, EnsembleState.loadCheck, hload,
      EnsembleState.ensemblePredict, hdlind, hml, isOkRes_okSome]

/-- Witness for C3: an ML-only and a DL-only ensemble on `"fever pain"`. -/
theorem C3_witness :
    EnsembleState.predict_single ensMlOnly "fever pain" "ensemble" =
        some (.single ⟨"fever pain", "ml_only", some (.ok mlDemoRes),
          dlIndOf ensMlOnly "fever pain", mlDemoRes⟩) ∧
      EnsembleState.predict_single ensDlOnly "fever pain" "ensemble" =
        some (.single ⟨"fever pain", "dl_only", mlIndOf ensDlOnly "fever pain",
          some (.ok dlDemoRes), dlDemoRes⟩) :=
  ⟨C3_single_model_fallback.1 ensMlOnly "fever pain" mlDemoRes rfl rfl
      (by with_unfolding_all decide) (by with_unfolding_all decide),
   C3_single_model_fallback.2 ensDlOnly "fever pain" dlDemoRes rfl rfl
      (by with_unfolding_all decide) (by with_unfolding_all decide)⟩

/-- Claim C6 (confirmed): on a loaded predictor, input whose cleaning is
empty yields exactly the empty-input error dict (with `original_text` and
`cleaned_text`), for both the ML and the DL predictor; and that message
differs from the not-loaded message and from every inference-failure
message. -/
theorem C6_empty_input_detection :
    (∀ (st : MLState) (text : String), st.is_loaded = true →
      pyStrip (cleanStr st.nlp text) = "" →
      st.predict_single text =
        .err ⟨"No valid symptoms found after preprocessing", some text,
          some (cleanStr st.nlp text)⟩) ∧
    (∀ (st : DLState) (text : String), st.is_loaded = true →
      pyStrip (cleanStr st.nlp text) = "" →
      st.predict_single text =
        .err ⟨"No valid symptoms found after preprocessing", some text,
          some (cleanStr st.nlp text)⟩) ∧
    ("No valid symptoms found after preprocessing" ≠ "Models not loaded" ∧
      ∀ e : String,
        "No valid symptoms found after preprocessing" ≠ "Prediction failed: " ++ e) := by
  refine ⟨?_, ?_, by decide, noValid_ne_predFailed⟩
  · intro st text hload hempty
    simp [MLState.predict_single, MLState.loadIfNeeded, hload,
      MLState.predictCore, hempty]
  · intro st text hload hempty
    simp [DLState.predict_single, DLState.loadIfNeeded, hload, hempty]

/-- Witness for C6 on the stop-word-only input `"am i"`. -/
theorem C6_witness :
    MLState.predict_single mlDemo "am i" =
        .err ⟨"No valid symptoms found after preprocessing", some "am i",
          some (cleanStr mlDemo.nlp "am i")⟩ ∧
      DLState.predict_single dlDemo "am i" =
        .err ⟨"No valid symptoms found after preprocessing", some "am i",
          some (cleanStr dlDemo.nlp "am i")⟩ :=
  ⟨C6_empty_input_detection.1 mlDemo "am i" rfl (by with_unfolding_all decide),
   C6_empty_input_detection.2.1 dlDemo "am i" rfl (by with_unfolding_all decide)⟩

/-- Claim C7 (confirmed): in a returned comparison dict, `agreement` and
`confidence_difference` stay `None` unless both recorded predictions are
success dicts, in which case they are the disease-equality flag and the
absolute confidence difference; the `consensus` key exists if and only if
the models agree, and then carries the shared disease and the average
confidence. -/
theorem C7_compare_models (st : EnsembleState) (text : String) (c : Comparison)
    (h : st.compare_models text = .cmp c) :
    ((isOkRes c.ml_prediction = none ∨ isOkRes c.dl_prediction = none) →
      c.agreement = none ∧ c.confidence_difference = none ∧ c.consensus = none) ∧
    (∀ m d, isOkRes c.ml_prediction = some m → isOkRes c.dl_prediction = some d →
      c.agreement = some (m.predicted_disease == d.predicted_disease) ∧
      c.confidence_difference = some |m.confidence - d.confidence| ∧
      c.consensus = (if m.predicted_disease == d.predicted_disease then
        some ⟨m.predicted_disease, (m.confidence + d.confidence) / 2⟩ else none)) ∧
    (c.consensus ≠ none ↔ c.agreement = some true) := by
  unfold EnsembleState.compare_models at h
  cases hlc : st.loadCheck with
  | none => rw [hlc] at h; simp at h
  | some s2 =>
    rw [hlc] at h
    simp only [] at h
    cases hm : isOkRes (mlIndOf s2 text) with
    | none =>
      rw [hm] at h
      simp only [CompareOutcome.cmp.injEq] at h
      subst h
      refine ⟨fun _ => ⟨rfl, rfl, rfl⟩, ?_, by simp⟩
      intro m d hm' _
      have hm2 : isOkRes (mlIndOf s2 text) = some m := hm'
      rw [hm] at hm2
      exact absurd hm2 (by simp)
    | some m0 =>
      rw [hm] at h
      cases hd : isOkRes (dlIndOf s2 text) with
      | none =>
        rw [hd] at h
        simp only [CompareOutcome.cmp.injEq] at h
        subst h
        refine ⟨fun _ => ⟨rfl, rfl, rfl⟩, ?_, by simp⟩
        intro m d _ hd'
        have hd2 : isOkRes (dlIndOf s2 text) = some d := hd'
        rw [hd] at hd2
        exact absurd hd2 (by simp)
      | some d0 =>
        rw [hd] at h
        simp only [CompareOutcome.cmp.injEq] at h
        subst h
        refine ⟨?_, ?_, ?_⟩
        · intro hdisj
          rcases hdisj with h' | h'
          · have h2 : isOkRes (mlIndOf s2 text) = none := h'
            rw [hm] at h2
            exact absurd h2 (by simp)
          · have h2 : isOkRes (dlIndOf s2 text) = none := h'
            rw [hd] at h2
            exact absurd h2 (by simp)
        · intro m d hm' hd'
          have hm2 : isOkRes (mlIndOf s2 text) = some m := hm'
          have hd2 : isOkRes (dlIndOf s2 text) = some d := hd'
          rw [hm] at hm2
          rw [hd] at hd2
          simp only [Option.some.injEq] at hm2 hd2
          subst hm2
          subst hd2
          exact ⟨rfl, rfl, rfl⟩
        · by_cases hagr : m0.predicted_disease == d0.predicted_disease
          · simp [hagr]
          · simp [hagr]

/-- The comparison dict of `ensDemo` on `"fever pain"`. -/
def c7Demo : Comparison :=
  ⟨"fever pain", some (.ok mlDemoRes), some (.ok dlDemoRes), some true,
   some (1/10), some ⟨"flu", 3/4⟩⟩

/-- Witness for C7: both demo models agree on `"flu"`. -/
theorem C7_witness :
    EnsembleState.compare_models ensDemo "fever pain" = .cmp c7Demo ∧
      (c7Demo.agreement =
          some (mlDemoRes.predicted_disease == dlDemoRes.predicted_disease) ∧
        c7Demo.confidence_difference =
          some |mlDemoRes.confidence - dlDemoRes.confidence| ∧
        c7Demo.consensus =
          (if mlDemoRes.predicted_disease == dlDemoRes.predicted_disease then
            some ⟨mlDemoRes.predicted_disease,
              (mlDemoRes.confidence + dlDemoRes.confidence) / 2⟩
          else none)) :=
  ⟨by with_unfolding_all decide,
   (C7_compare_models ensDemo "fever pain" c7Demo
      (by with_unfolding_all decide)).2.1 mlDemoRes dlDemoRes
      (by with_unfolding_all decide) (by with_unfolding_all decide)⟩

/-- A pairwise-descending list is index-wise non-increasing. -/
theorem pairwise_getD_le {β : Type} (conf : β → ℚ) (dflt : β) (l : List β)
    (h : l.Pairwise (fun a b => conf b ≤ conf a)) :
    ∀ i, i + 1 < l.length → conf (l.getD (i + 1) dflt) ≤ conf (l.getD i dflt) := by
  intro i hi
  have h1 : i < l.length := Nat.lt_of_succ_lt hi
  have hgot := List.pairwise_iff_get.mp h ⟨i, h1⟩ ⟨i + 1, hi⟩ (by simp)
  have e1 : l.getD i dflt = l.get ⟨i, h1⟩ := by
    simp [List.getD_eq_getElem?_getD, List.getElem?_eq_getElem h1, List.get_eq_getElem]
  have e2 : l.getD (i + 1) dflt = l.get ⟨i + 1, hi⟩ := by
    simp [List.getD_eq_getElem?_getD, List.getElem?_eq_getElem hi, List.get_eq_getElem]
  rw [e1, e2]
  exact hgot

/-- An ML success dict has a descending `top_predictions` list. -/
theorem mlBuild_pairwise (classes : List String) (probs : List ℚ)
    (orig cleaned : String) (r : PredOk)
    (h : mlBuild classes probs orig cleaned = some r) :
    r.top_predictions.Pairwise (fun a b => b.confidence ≤ a.confidence) := by
  unfold mlBuild at h
  split at h
  · simp at h
  · split at h
    · next pd tops hpd htops =>
      simp only [Option.some.injEq] at h
      subst h
      exact topEntries_pairwise classes probs 3 tops htops
    · simp at h

/-- A DL success dict has a descending `top_predictions` list. -/
theorem dlBuild_pairwise (classes : List String) (probs : List ℚ)
    (orig cleaned : String) (seqLen : Nat) (r : PredOk)
    (h : dlBuild classes probs orig cleaned seqLen = some r) :
    r.top_predictions.Pairwise (fun a b => b.confidence ≤ a.confidence) := by
  unfold dlBuild at h
  split at h
  · simp at h
  · split at h
    · next pd tops hpd htops =>
      simp only [Option.some.injEq] at h
      subst h
      exact topEntries_pairwise classes probs 3 tops htops
    · simp at h

/-- The combined dict has a descending `top_predictions` list. -/
theorem combine_pairwise (m d : PredOk) (c : EnsCombine)
    (h : combinePredictions m d = some c) :
    c.top_predictions.Pairwise (fun a b => b.confidence ≤ a.confidence) := by
  simp only [combinePredictions] at h
  split at h
  · simp at h
  · next top rest heq =>
    simp only [Option.some.injEq] at h
    subst h
    have hsorted : (sortDesc (fun p => p.2)
        (combinedPairs m.top_predictions d.top_predictions)).Pairwise
        (fun a b : String × ℚ => b.2 ≤ a.2) :=
      pairwise_sortDesc _ _
    have htake := hsorted.sublist
      (List.take_sublist 5 (sortDesc (fun p => p.2)
        (combinedPairs m.top_predictions d.top_predictions)))
    exact htake.map
      (fun (p : String × ℚ) => (⟨p.1, p.2, predGetD m.top_predictions p.1,
        predGetD d.top_predictions p.1⟩ : EnsEntry))
      (fun a b hab => hab)

/-- Claim C4 (confirmed): every success dict of `predict_single` (ML or DL)
and every combined ensemble dict has `top_predictions` sorted by
non-increasing confidence. -/
theorem C4_rank_ordering :
    (∀ (st : MLState) (text : String) (r : PredOk),
      st.predict_single text = .ok r → ∀ i, i + 1 < r.top_predictions.length →
      (r.top_predictions.getD (i + 1) ⟨"", 0⟩).confidence ≤
        (r.top_predictions.getD i ⟨"", 0⟩).confidence) ∧
    (∀ (st : DLState) (text : String) (r : PredOk),
      st.predict_single text = .ok r → ∀ i, i + 1 < r.top_predictions.length →
      (r.top_predictions.getD (i + 1) ⟨"", 0⟩).confidence ≤
        (r.top_predictions.getD i ⟨"", 0⟩).confidence) ∧
    (∀ (m d : PredOk) (c : EnsCombine),
      combinePredictions m d = some c → ∀ i, i + 1 < c.top_predictions.length →
      (c.top_predictions.getD (i + 1) ⟨"", 0, 0, 0⟩).confidence ≤
        (c.top_predictions.getD i ⟨"", 0, 0, 0⟩).confidence) := by
  refine ⟨?_, ?_, ?_⟩
  · intro st text r h
    unfold MLState.predict_single at h
    cases hld : st.loadIfNeeded with
    | none => rw [hld] at h; simp at h
    | some s =>
      rw [hld] at h
      simp only [MLState.predictCore] at h
      split at h
      · simp at h
      · split at h
        · simp at h
        · next probs hprobs =>
          split at h
          · next r2 hr2 =>
            simp only [PredResult.ok.injEq] at h
            subst h
            exact pairwise_getD_le (fun (p : PredEntry) => p.confidence) ⟨"", 0⟩ _
              (mlBuild_pairwise s.classes probs text (cleanStr s.nlp text) r2 hr2)
          · simp at h
  · intro st text r h
    unfold DLState.predict_single at h
    cases hld : st.loadIfNeeded with
    | none => rw [hld] at h; simp at h
    | some s =>
      rw [hld] at h
      simp only [] at h
      split at h
      · simp at h
      · split at h
        · simp at h
        · split at h
          · next r2 hr2 =>
            simp only [PredResult.ok.injEq] at h
            subst h
            exact pairwise_getD_le (fun (p : PredEntry) => p.confidence) ⟨"", 0⟩ _
              (dlBuild_pairwise s.classes _ text (cleanStr s.nlp text) _ r2 hr2)
          · simp at h
  · intro m d c h
    exact pairwise_getD_le (fun (e : EnsEntry) => e.confidence) ⟨"", 0, 0, 0⟩ _
      (combine_pairwise m d c h)

/-- Witness for C4: adjacent confidences in the demo ML, DL and combined
results. -/
theorem C4_witness :
    (mlDemoRes.top_predictions.getD 1 ⟨"", 0⟩).confidence ≤
        (mlDemoRes.top_predictions.getD 0 ⟨"", 0⟩).confidence ∧
      (dlDemoRes.top_predictions.getD 1 ⟨"", 0⟩).confidence ≤
        (dlDemoRes.top_predictions.getD 0 ⟨"", 0⟩).confidence ∧
      (c2Combined.top_predictions.getD 1 ⟨"", 0, 0, 0⟩).confidence ≤
        (c2Combined.top_predictions.getD 0 ⟨"", 0, 0, 0⟩).confidence :=
  ⟨C4_rank_ordering.1 mlDemo "fever pain" mlDemoRes
      (by with_unfolding_all decide) 0 (by decide),
   C4_rank_ordering.2.1 dlDemo "fever pain" dlDemoRes
      (by with_unfolding_all decide) 0 (by decide),
   C4_rank_ordering.2.2 mlC2 dlC2 c2Combined
      (by with_unfolding_all decide) 0 (by decide)⟩

/-- Claim C5 (confirmed): all three `predict_batch` operations return one
result per input — including under total load failure and under a batch
inference exception; for the ensemble the statement covers every list the
comprehension actually returns. -/
theorem C5_batch_length :
    (∀ (st : MLState) (texts : List String),
      (st.predict_batch texts).length = texts.length) ∧
    (∀ (st : DLState) (texts : List String),
      (st.predict_batch texts).length = texts.length) ∧
    (∀ (st : EnsembleState) (texts : List String) (method : String)
      (rs : List EnsOutcome),
      st.predict_batch texts method = some rs → rs.length = texts.length) := by
  refine ⟨?_, ?_, ?_⟩
  · intro st texts
    unfold MLState.predict_batch
    cases st.loadIfNeeded <;> simp
  · intro st texts
    simp only [DLState.predict_batch]
    split
    · simp
    · next s hld =>
      split
      · simp
      · split
        · next rs2 hopt =>
          rw [optMap_length _ _ _ hopt]
          exact map4_length _ _ _ _ _ (by simp) (by simp) (by simp)
        · simp
  · intro st texts method rs h
    exact optMap_length (fun t => st.predict_single t method) texts rs h

/-- The batch result of `ensDemo` on two stop-word inputs via the ML
method. -/
def c5BatchRes : List EnsOutcome :=
  [.delegated (.err ⟨"No valid symptoms found after preprocessing", some "am",
      some ""⟩),
   .delegated (.err ⟨"No valid symptoms found after preprocessing", some "i",
      some ""⟩)]

/-- Witness for C5 on a concrete two-element batch. -/
theorem C5_witness :
    EnsembleState.predict_batch ensDemo ["am", "i"] "ml" = some c5BatchRes ∧
      c5BatchRes.length = (["am", "i"] : List String).length :=
  ⟨by with_unfolding_all decide,
   C5_batch_length.2.2 ensDemo ["am", "i"] "ml" c5BatchRes
     (by with_unfolding_all decide)⟩

/-- The `.get(d, 0.0)` lookup stays inside `[0, 1]` when all listed
confidences do. -/
theorem predGetD_bounds (ps : List PredEntry) (dname : String)
    (hb : ∀ p ∈ ps, 0 ≤ p.confidence ∧ p.confidence ≤ 1) :
    0 ≤ predGetD ps dname ∧ predGetD ps dname ≤ 1 := by
  unfold predGetD
  cases hf : ps.reverse.find? (fun p => p.disease == dname) with
  | none => simp only [hf]; norm_num
  | some p =>
    simp only [hf]
    exact hb p (List.mem_reverse.mp (List.mem_of_find?_eq_some hf))

/-- The fixed weights keep a nonnegative combination nonnegative. -/
theorem weighted_nonneg (a b : ℚ) (ha : 0 ≤ a) (hb : 0 ≤ b) :
    0 ≤ a * (6/10) + b * (4/10) := by nlinarith

/-- The fixed weights keep a `[0, 1]` combination below one. -/
theorem weighted_le_one (a b : ℚ) (ha : a ≤ 1) (hb : b ≤ 1) :
    a * (6/10) + b * (4/10) ≤ 1 := by nlinarith

/-- A convex combination is bounded by the larger input. -/
theorem weighted_le_max (a b : ℚ) : a * (6/10) + b * (4/10) ≤ max a b := by
  rcases le_total a b with h | h
  · have h2 : a * (6/10) + b * (4/10) ≤ b := by nlinarith
    exact le_trans h2 (le_max_right a b)
  · have h2 : a * (6/10) + b * (4/10) ≤ a := by nlinarith
    exact le_trans h2 (le_max_left a b)

/-- Every combined score is the weighted average of the two lookups of its
disease. -/
theorem combinedPairs_mem (mlPs dlPs : List PredEntry) (p : String × ℚ)
    (hp : p ∈ combinedPairs mlPs dlPs) :
    p.2 = predGetD mlPs p.1 * (6/10) + predGetD dlPs p.1 * (4/10) := by
  unfold combinedPairs at hp
  rcases List.mem_map.mp hp with ⟨dname, _, heq⟩
  subst heq
  rfl

/-- Claim C8 (confirmed): when every listed per-model confidence is in
`[0, 1]`, every confidence `_combine_predictions` emits (top level and per
entry) is in `[0, 1]`, and each entry is bounded by the larger of its two
per-model confidences. -/
theorem C8_combined_bounds (m d : PredOk) (c : EnsCombine)
    (hm : ∀ p ∈ m.top_predictions, 0 ≤ p.confidence ∧ p.confidence ≤ 1)
    (hd : ∀ p ∈ d.top_predictions, 0 ≤ p.confidence ∧ p.confidence ≤ 1)
    (h : combinePredictions m d = some c) :
    (0 ≤ c.confidence ∧ c.confidence ≤ 1) ∧
    ∀ e ∈ c.top_predictions,
      (0 ≤ e.confidence ∧ e.confidence ≤ 1) ∧
      e.confidence ≤ max e.ml_confidence e.dl_confidence := by
  simp only [combinePredictions] at h
  split at h
  · simp at h
  · next top rest heq =>
    simp only [Option.some.injEq] at h
    subst h
    constructor
    · have htop : top ∈ combinedPairs m.top_predictions d.top_predictions := by
        have hmem : top ∈ sortDesc (fun p => p.2)
            (combinedPairs m.top_predictions d.top_predictions) := by
          rw [heq]
          exact List.mem_cons_self _ _
        exact (mem_sortDesc _ _ _).mp hmem
      have hform := combinedPairs_mem _ _ _ htop
      have hml := predGetD_bounds m.top_predictions top.1 hm
      have hdl := predGetD_bounds d.top_predictions top.1 hd
      constructor
      · show 0 ≤ top.2
        rw [hform]
        exact weighted_nonneg _ _ hml.1 hdl.1
      · show top.2 ≤ 1
        rw [hform]
        exact weighted_le_one _ _ hml.2 hdl.2
    · intro e he
      simp only [List.mem_map] at he
      rcases he with ⟨p, hp, hep⟩
      have hpin : p ∈ combinedPairs m.top_predictions d.top_predictions :=
        (mem_sortDesc _ _ _).mp (List.mem_of_mem_take hp)
      subst hep
      have hform := combinedPairs_mem _ _ _ hpin
      have hml := predGetD_bounds m.top_predictions p.1 hm
      have hdl := predGetD_bounds d.top_predictions p.1 hd
      refine ⟨⟨?_, ?_⟩, ?_⟩
      · show 0 ≤ p.2
        rw [hform]
        exact weighted_nonneg _ _ hml.1 hdl.1
      · show p.2 ≤ 1
        rw [hform]
        exact weighted_le_one _ _ hml.2 hdl.2
      · show p.2 ≤ max (predGetD m.top_predictions p.1) (predGetD d.top_predictions p.1)
        rw [hform]
        exact weighted_le_max _ _

/-- Witness for C8 on the weighted-combination example. -/
theorem C8_witness :
    (0 ≤ c2Combined.confidence ∧ c2Combined.confidence ≤ 1) ∧
      ∀ e ∈ c2Combined.top_predictions,
        (0 ≤ e.confidence ∧ e.confidence ≤ 1) ∧
        e.confidence ≤ max e.ml_confidence e.dl_confidence :=
  C8_combined_bounds mlC2 dlC2 c2Combined (by with_unfolding_all decide)
    (by with_unfolding_all decide) (by with_unfolding_all decide)
